import Mathlib

/-!
Verification of `mindauto/data/transforms/utils.py`: the field extractor
`extract_result_dict`, the step classifier `is_loading_function`, and the
pipeline reducer `get_loading_pipeline`.

We embed the Python values shallowly:
* a pipeline step is either a dict-form config (with a `type` string and an
  optional `transforms` list), an instantiated transform object (identified
  by its runtime class), or an instantiated `MultiScaleFlipAug3D` wrapper
  object carrying its inner transform list (`transform.transforms.transforms`
  in the source);
* fallible Python code (AssertionError, IndexError, AttributeError) is
  embedded with `Except String`.
-/

/-- Runtime class of an instantiated, non-wrapper transform object.
The three named classes are exactly those in the `loading_functions` tuple
of `is_loading_function`; every other callable transform (Resize,
RandomFlip3D, ...) is `other` with its class name. -/
inductive ObjKind where
  | LoadAnnotations3D
  | LoadMultiViewImageFromFiles
  | DefaultFormatBundle3D
  | other (clsName : String)
deriving DecidableEq, Repr

/-- A pipeline step, in either representation form the Python code accepts:
* `config ty transforms`: a dict such as `dict(type='LoadAnnotations3D', ...)`;
  `transforms` is the value of its `'transforms'` key when present
  (`transform.get('transforms', [])` reads it).  A dict is not callable.
* `obj k`: an instantiated callable transform object of class `k`.
* `msfaObj transforms`: an instantiated `MultiScaleFlipAug3D` object;
  `transforms` is the Python `transform.transforms.transforms` list. -/
inductive Step where
  | config (ty : String) (transforms : Option (List Step))
  | obj (k : ObjKind)
  | msfaObj (transforms : List Step)
deriving Repr

/-- `callable(transform)` in Python: instantiated objects are callable,
dict configs are not. -/
def Step.isCallable : Step → Bool
  | .config _ _ => false
  | .obj _ => true
  | .msfaObj _ => true

/-- `is_loading_function(transform)` from the source.  Returns
`some true` (Python `True`), `some false` (`False`) or `none` (`None`):

    loading_functions = (LoadAnnotations3D, LoadMultiViewImageFromFiles,
                         DefaultFormatBundle3D)
    if callable(transform):
        if isinstance(transform, loading_functions):
            return True
        if isinstance(transform, MultiScaleFlipAug3D):
            return None
    return False
-/
def is_loading_function : Step → Option Bool
  | .obj .LoadAnnotations3D => some true
  | .obj .LoadMultiViewImageFromFiles => some true
  | .obj .DefaultFormatBundle3D => some true
  | .obj (.other _) => some false
  | .msfaObj _ => none
  | .config _ _ => some false

/-- The AssertionError message of `get_loading_pipeline`. -/
def emptyMsg : String :=
  "The data pipeline in your config file must include loading step."

/-- The final `assert len(loading_pipeline) > 0` of `get_loading_pipeline`,
applied to the accumulated result (errors from recursive calls propagate). -/
def assertNonEmpty : Except String (List Step) → Except String (List Step)
  | .error e => .error e
  | .ok lp => if 0 < lp.length then .ok lp else .error emptyMsg

/-- The `for transform in pipeline:` loop body of `get_loading_pipeline`,
iterated over the list.  For each step it computes
`is_loading = is_loading_function(transform)`; on `None` it reads the inner
pipeline (from the dict `'transforms'` key for a dict, else from
`transform.transforms.transforms`) and extends with the recursive
`get_loading_pipeline` call (which carries its own non-empty assertion,
inlined here as `assertNonEmpty`); on `True` it appends the step; on
`False` it drops it.  An `obj` reaching the `None` arm would be a Python
`AttributeError` (no `.transforms`); that arm is unreachable. -/
def reduceSteps : List Step → Except String (List Step)
  | [] => .ok []
  | t :: rest =>
    let head : Except String (List Step) :=
      match is_loading_function t with
      | none =>
        match t with
        | .config _ Option.none => assertNonEmpty (reduceSteps [])
        | .config _ (some tfs) => assertNonEmpty (reduceSteps tfs)
        | .msfaObj tfs => assertNonEmpty (reduceSteps tfs)
        | .obj _ => .error "AttributeError"
      | some true => .ok [t]
      | some false => .ok []
    match head with
    | .error e => .error e
    | .ok hs =>
      match reduceSteps rest with
      | .error e => .error e
      | .ok ts => .ok (hs ++ ts)

/-- `get_loading_pipeline(pipeline)` from the source: run the loop, then
`assert len(loading_pipeline) > 0`. -/
def get_loading_pipeline (pipeline : List Step) : Except String (List Step) :=
  assertNonEmpty (reduceSteps pipeline)

/-- What one loop iteration contributes to `loading_pipeline` for step `t`
(the value whose elements are appended/extended, or the error it raises). -/
def stepContribution (t : Step) : Except String (List Step) :=
  match is_loading_function t with
  | none =>
    match t with
    | .config _ Option.none => assertNonEmpty (reduceSteps [])
    | .config _ (some tfs) => assertNonEmpty (reduceSteps tfs)
    | .msfaObj tfs => assertNonEmpty (reduceSteps tfs)
    | .obj _ => .error "AttributeError"
  | some true => .ok [t]
  | some false => .ok []

/-- The boolean test `is_loading` is truthy (the `elif is_loading:` branch). -/
def keepStep (t : Step) : Bool := is_loading_function t == some true

/-- A Python value as stored in a result dict. -/
inductive PyVal where
  | int (n : Int)
  | str (s : String)
  | list (xs : List PyVal)
  | tuple (xs : List PyVal)
  | pyNone
deriving Repr

/-- `extract_result_dict(results, key)` from the source; the dict is an
association list.  `data[0]` on an empty list or tuple is a Python
IndexError, embedded as `.error`:

    if key not in results.keys():
        return None
    data = results[key]
    if isinstance(data, (list, tuple)):
        data = data[0]
    return data
-/
def extract_result_dict (results : List (String × PyVal)) (key : String) :
    Except String PyVal :=
  match results.lookup key with
  | Option.none => .ok PyVal.pyNone
  | some data =>
    match data with
    | .list [] => .error "IndexError: list index out of range"
    | .list (x :: _) => .ok x
    | .tuple [] => .error "IndexError: tuple index out of range"
    | .tuple (x :: _) => .ok x
    | d => .ok d

/-- The scenario pipeline of §8 of the spec (the doctest of
`get_loading_pipeline`), in declarative dict form. -/
def scenarioPipeline : List Step :=
  [ .config "LoadPointsFromFile" Option.none,
    .config "LoadImageFromFile" Option.none,
    .config "LoadAnnotations3D" Option.none,
    .config "Resize" Option.none,
    .config "RandomFlip3D" Option.none,
    .config "PointsRangeFilter" Option.none,
    .config "Normalize" Option.none,
    .config "DefaultFormatBundle3D" Option.none,
    .config "Collect3D" Option.none ]

/- ------------------------------------------------------------------ -/
/- Helper lemmas about the reduction loop.                             -/
/- ------------------------------------------------------------------ -/

theorem reduceSteps_nil : reduceSteps [] = .ok [] := by
  simp [reduceSteps]

theorem reduceSteps_cons (t : Step) (rest : List Step) :
    reduceSteps (t :: rest) =
      match stepContribution t with
      | .error e => .error e
      | .ok hs =>
        match reduceSteps rest with
        | .error e => .error e
        | .ok ts => .ok (hs ++ ts) := by
  cases t with
  | config ty tfs =>
    cases tfs with
    | none => simp [reduceSteps, stepContribution, is_loading_function]
    | some inner => simp [reduceSteps, stepContribution, is_loading_function]
  | obj k => cases k <;> simp [reduceSteps, stepContribution, is_loading_function]
  | msfaObj tfs => simp [reduceSteps, stepContribution, is_loading_function]

theorem stepContribution_loading {t : Step} (h : is_loading_function t = some true) :
    stepContribution t = .ok [t] := by
  rw [stepContribution.eq_def, h]

theorem stepContribution_notloading {t : Step} (h : is_loading_function t = some false) :
    stepContribution t = .ok [] := by
  rw [stepContribution.eq_def, h]

theorem stepContribution_msfa (tfs : List Step) :
    stepContribution (.msfaObj tfs) = get_loading_pipeline tfs := rfl

theorem reduceSteps_cons_loading {t : Step} (rest : List Step)
    (h : is_loading_function t = some true) :
    reduceSteps (t :: rest) =
      match reduceSteps rest with
      | .error e => .error e
      | .ok ts => .ok (t :: ts) := by
  rw [reduceSteps_cons, stepContribution_loading h]
  cases reduceSteps rest <;> simp

theorem reduceSteps_cons_notloading {t : Step} (rest : List Step)
    (h : is_loading_function t = some false) :
    reduceSteps (t :: rest) = reduceSteps rest := by
  rw [reduceSteps_cons, stepContribution_notloading h]
  cases reduceSteps rest <;> simp

theorem reduceSteps_cons_msfa (tfs rest : List Step) :
    reduceSteps (.msfaObj tfs :: rest) =
      match get_loading_pipeline tfs with
      | .error e => .error e
      | .ok hs =>
        match reduceSteps rest with
        | .error e => .error e
        | .ok ts => .ok (hs ++ ts) := by
  rw [reduceSteps_cons, stepContribution_msfa]

theorem reduceSteps_append (l₁ l₂ : List Step) :
    reduceSteps (l₁ ++ l₂) =
      match reduceSteps l₁ with
      | .error e => .error e
      | .ok a =>
        match reduceSteps l₂ with
        | .error e => .error e
        | .ok b => .ok (a ++ b) := by
  induction l₁ with
  | nil =>
    rw [List.nil_append, reduceSteps_nil]
    cases reduceSteps l₂ <;> simp
  | cons t rest ih =>
    rw [List.cons_append, reduceSteps_cons, reduceSteps_cons, ih]
    cases stepContribution t <;> cases reduceSteps rest <;> cases reduceSteps l₂ <;> simp

/-- On a wrapper-free list (every classification is boolean) the loop keeps
exactly the steps classified `True`, in order. -/
theorem reduceSteps_no_wrapper (l : List Step)
    (h : ∀ t ∈ l, is_loading_function t ≠ none) :
    reduceSteps l = .ok (l.filter keepStep) := by
  induction l with
  | nil => simp [reduceSteps_nil]
  | cons t rest ih =>
    have ht : is_loading_function t ≠ none := h t (by simp)
    have hrest : ∀ s ∈ rest, is_loading_function s ≠ none := by
      intro s hs; exact h s (by simp [hs])
    cases hb : is_loading_function t with
    | none => exact absurd hb ht
    | some b =>
      cases b with
      | false =>
        rw [reduceSteps_cons_notloading rest hb, ih hrest]
        simp [List.filter_cons, keepStep, hb]
      | true =>
        rw [reduceSteps_cons_loading rest hb, ih hrest]
        simp [List.filter_cons, keepStep, hb]

/-- A list whose steps all classify False contributes nothing to the
accumulated result. -/
theorem reduceSteps_all_notloading (l : List Step)
    (h : ∀ t ∈ l, is_loading_function t = some false) :
    reduceSteps l = .ok [] := by
  induction l with
  | nil => exact reduceSteps_nil
  | cons t rest ih =>
    rw [reduceSteps_cons_notloading rest (h t (by simp))]
    exact ih (fun s hs => h s (by simp [hs]))

theorem assertNonEmpty_ok {r : Except String (List Step)} {l : List Step}
    (h : assertNonEmpty r = .ok l) : r = .ok l ∧ 0 < l.length := by
  cases r with
  | error e => simp [assertNonEmpty] at h
  | ok lp =>
    by_cases hl : 0 < lp.length
    · simp [assertNonEmpty, hl] at h
      subst h
      exact ⟨rfl, hl⟩
    · simp [assertNonEmpty, hl] at h

/-- The `None` classification only ever arises from an instantiated
`MultiScaleFlipAug3D` object, never from a dict. -/
theorem is_loading_function_none {t : Step} (h : is_loading_function t = none) :
    ∃ tfs, t = Step.msfaObj tfs := by
  cases t with
  | config ty o => simp [is_loading_function] at h
  | obj k => cases k <;> simp [is_loading_function] at h
  | msfaObj tfs => exact ⟨tfs, rfl⟩

/-- Every step in a list produced by the reduction loop is classified
`True` (loading): appended steps are, and spliced wrapper contents are by
recursion.  Strong induction on the size of the pipeline. -/
theorem reduceSteps_all_loading :
    ∀ (P l : List Step), reduceSteps P = .ok l →
      ∀ t ∈ l, is_loading_function t = some true := by
  have key : ∀ (n : ℕ) (P : List Step), sizeOf P ≤ n → ∀ l, reduceSteps P = .ok l →
      ∀ t ∈ l, is_loading_function t = some true := by
    intro n
    induction n with
    | zero =>
      intro P hP
      exfalso
      have : 0 < sizeOf P := by cases P <;> simp
      omega
    | succ n ih =>
      intro P hP l hl t ht
      cases P with
      | nil =>
        rw [reduceSteps_nil] at hl
        injection hl with hl
        subst hl
        simp at ht
      | cons s rest =>
        have hsrest : sizeOf rest ≤ n := by
          have h1 := List.cons.sizeOf_spec s rest
          have h2 : 0 < sizeOf s := by cases s <;> simp
          omega
        rw [reduceSteps_cons] at hl
        cases hc : stepContribution s with
        | error e => rw [hc] at hl; cases hl
        | ok hs =>
          rw [hc] at hl
          cases hr : reduceSteps rest with
          | error e => rw [hr] at hl; cases hl
          | ok ts =>
            rw [hr] at hl
            injection hl with hl
            subst hl
            rcases List.mem_append.mp ht with hm | hm
            · cases hcl : is_loading_function s with
              | some b =>
                cases b with
                | true =>
                  rw [stepContribution_loading hcl] at hc
                  injection hc with hc
                  subst hc
                  simp at hm
                  subst hm
                  exact hcl
                | false =>
                  rw [stepContribution_notloading hcl] at hc
                  injection hc with hc
                  subst hc
                  simp at hm
              | none =>
                obtain ⟨tfs, rfl⟩ := is_loading_function_none hcl
                rw [stepContribution_msfa] at hc
                obtain ⟨hred, _⟩ := assertNonEmpty_ok hc
                have hstfs : sizeOf tfs ≤ n := by
                  have h1 := List.cons.sizeOf_spec (Step.msfaObj tfs) rest
                  have h2 := Step.msfaObj.sizeOf_spec tfs
                  omega
                exact ih tfs hstfs hs hred t hm
            · exact ih rest hsrest ts hr t hm
  intro P
  exact key (sizeOf P) P le_rfl

/- ------------------------------------------------------------------ -/
/- Claim theorems.                                                     -/
/- ------------------------------------------------------------------ -/

/-- C1: the classifier does not apply the claimed policy to dict-form
steps: a declarative description whose type field names a loading kind
(here LoadAnnotations3D) is classified False (NOT_LOADING), not LOADING,
because the `callable(transform)` guard makes every dict fall through to
`return False` without its type field ever being read. -/
theorem c1_dict_loading_config_classified_false :
    is_loading_function (Step.config "LoadAnnotations3D" Option.none) = some false := rfl

/-- C2: evaluating the reducer at the scenario pipeline of declarative
dict descriptions: every dict is classified False and dropped, so the
accumulated result is empty and the non-empty assertion raises, instead of
returning the five loading steps the spec (and the function's own doctest)
promise. -/
theorem c2_scenario_pipeline_raises :
    get_loading_pipeline scenarioPipeline = .error emptyMsg := by
  rw [get_loading_pipeline, reduceSteps_all_notloading scenarioPipeline (by decide)]
  rfl

/-- C3 counterexample: the extractor is not total — a key mapped to an
empty list raises IndexError (`data[0]` on `[]`), rather than producing a
value or the absent marker. -/
theorem c3_empty_list_raises :
    extract_result_dict [("x", PyVal.list [])] "x" =
      .error "IndexError: list index out of range" := rfl

/-- C3 (amended): the extractor never fails unless the value stored under
the key is an empty list or an empty tuple; when the stored value is a
sequence of length ≥ 1 its first element is returned. -/
theorem c3_total_unless_empty_sequence :
    (∀ (results : List (String × PyVal)) (key : String),
        results.lookup key ≠ some (PyVal.list []) →
        results.lookup key ≠ some (PyVal.tuple []) →
        ∃ v, extract_result_dict results key = .ok v)
  ∧ (∀ (results : List (String × PyVal)) (key : String) (x : PyVal) (xs : List PyVal),
        results.lookup key = some (PyVal.list (x :: xs)) →
        extract_result_dict results key = .ok x)
  ∧ (∀ (results : List (String × PyVal)) (key : String) (x : PyVal) (xs : List PyVal),
        results.lookup key = some (PyVal.tuple (x :: xs)) →
        extract_result_dict results key = .ok x) := by
  refine ⟨?_, ?_, ?_⟩
  · intro results key h1 h2
    unfold extract_result_dict
    cases hk : results.lookup key with
    | none => exact ⟨PyVal.pyNone, rfl⟩
    | some data =>
      cases data with
      | list xs =>
        cases xs with
        | nil => exact absurd hk h1
        | cons x xs => exact ⟨x, rfl⟩
      | tuple xs =>
        cases xs with
        | nil => exact absurd hk h2
        | cons x xs => exact ⟨x, rfl⟩
      | int n => exact ⟨.int n, rfl⟩
      | str s => exact ⟨.str s, rfl⟩
      | pyNone => exact ⟨.pyNone, rfl⟩
  · intro results key x xs h
    unfold extract_result_dict
    rw [h]
  · intro results key x xs h
    unfold extract_result_dict
    rw [h]

/-- C3 witness: concrete instances of the amended statement. -/
theorem c3_total_witness :
    (∃ v, extract_result_dict [("x", PyVal.int 5)] "x" = .ok v)
  ∧ extract_result_dict [("x", PyVal.list [PyVal.int 7])] "x" = .ok (PyVal.int 7)
  ∧ extract_result_dict [("x", PyVal.tuple [PyVal.int 8])] "x" = .ok (PyVal.int 8) :=
  ⟨c3_total_unless_empty_sequence.1 [("x", PyVal.int 5)] "x"
      (by simp [List.lookup]) (by simp [List.lookup]),
   c3_total_unless_empty_sequence.2.1 [("x", PyVal.list [PyVal.int 7])] "x"
      (PyVal.int 7) [] (by simp [List.lookup]),
   c3_total_unless_empty_sequence.2.2 [("x", PyVal.tuple [PyVal.int 8])] "x"
      (PyVal.int 8) [] (by simp [List.lookup])⟩

/-- C4: a pipeline all of whose steps classify False reduces to the empty
list and raises the non-empty AssertionError; and the identical check runs
at every recursion level, so a wrapper whose embedded sub-pipeline fails
its own check makes the whole reduction raise, even when the enclosing
pipeline contains loading steps. -/
theorem c4_empty_result_raises :
    (∀ P : List Step, (∀ t ∈ P, is_loading_function t = some false) →
        get_loading_pipeline P = .error emptyMsg)
  ∧ (∀ (pre inner post : List Step) (e : String),
        get_loading_pipeline inner = .error e →
        ∃ e2, get_loading_pipeline (pre ++ Step.msfaObj inner :: post) = .error e2) := by
  constructor
  · intro P h
    rw [get_loading_pipeline, reduceSteps_all_notloading P h]
    rfl
  · intro pre inner post e he
    rw [get_loading_pipeline, reduceSteps_append]
    cases hp : reduceSteps pre with
    | error e1 => exact ⟨e1, by simp [assertNonEmpty]⟩
    | ok a =>
      rw [reduceSteps_cons_msfa, he]
      exact ⟨e, by simp [assertNonEmpty]⟩

/-- C4 witness: a loading-free pipeline raises, and a wrapper with a
loading-free sub-pipeline raises even next to a loading step. -/
theorem c4_empty_result_witness :
    get_loading_pipeline [Step.obj (ObjKind.other "Resize")] = .error emptyMsg
  ∧ ∃ e2, get_loading_pipeline
      [Step.obj ObjKind.LoadAnnotations3D,
       Step.msfaObj [Step.obj (ObjKind.other "Resize")]] = .error e2 :=
  ⟨c4_empty_result_raises.1 [Step.obj (ObjKind.other "Resize")]
      (by intro t ht; simp at ht; subst ht; rfl),
   c4_empty_result_raises.2 [Step.obj ObjKind.LoadAnnotations3D]
      [Step.obj (ObjKind.other "Resize")] [] emptyMsg
      (by rw [get_loading_pipeline, reduceSteps_all_notloading _ (by decide)]; rfl)⟩

/-- C5: on a wrapper-free pipeline of instantiated steps containing at
least one loading step, reduction returns exactly the loading-classified
subsequence in original order; other steps are dropped without raising. -/
theorem c5_filter_loading :
    ∀ P : List Step, (∀ t ∈ P, ∃ k, t = Step.obj k) →
      (∃ t ∈ P, is_loading_function t = some true) →
      get_loading_pipeline P = .ok (P.filter keepStep) := by
  intro P hobj hex
  have h2 : ∀ t ∈ P, is_loading_function t ≠ none := by
    intro t ht
    obtain ⟨k, rfl⟩ := hobj t ht
    cases k <;> simp [is_loading_function]
  rw [get_loading_pipeline, reduceSteps_no_wrapper P h2]
  obtain ⟨t, ht, hl⟩ := hex
  have hmem : t ∈ P.filter keepStep :=
    List.mem_filter.mpr ⟨ht, by simp [keepStep, hl]⟩
  have hne : 0 < (P.filter keepStep).length :=
    List.length_pos.mpr (List.ne_nil_of_mem hmem)
  simp [assertNonEmpty, hne]

/-- C5 witness: a loading object followed by a Resize object reduces to
the filter of the input. -/
theorem c5_filter_loading_witness :
    get_loading_pipeline
      [Step.obj ObjKind.LoadAnnotations3D, Step.obj (ObjKind.other "Resize")] =
    .ok ([Step.obj ObjKind.LoadAnnotations3D,
          Step.obj (ObjKind.other "Resize")].filter keepStep) :=
  c5_filter_loading _
    (by intro t ht; simp at ht; rcases ht with rfl | rfl
        exacts [⟨ObjKind.LoadAnnotations3D, rfl⟩, ⟨ObjKind.other "Resize", rfl⟩])
    ⟨Step.obj ObjKind.LoadAnnotations3D, by simp, rfl⟩

/-- C6: wrapper flattening — the wrapper is discarded and its reduced
contents are spliced in at its position, and the same holds one level
deeper for a nested wrapper, preserving left-to-right order. -/
theorem c6_wrapper_flattening :
    ∀ A B C D : Step,
      is_loading_function A = some true →
      is_loading_function B = some false →
      is_loading_function C = some true →
      is_loading_function D = some true →
      get_loading_pipeline [A, Step.msfaObj [B, C], D] = .ok [A, C, D] ∧
      get_loading_pipeline [A, Step.msfaObj [B, Step.msfaObj [C]], D] = .ok [A, C, D] := by
  intro A B C D hA hB hC hD
  have hC1 : get_loading_pipeline [C] = .ok [C] := by
    rw [get_loading_pipeline, reduceSteps_cons_loading _ hC, reduceSteps_nil]
    simp [assertNonEmpty]
  have hBC : get_loading_pipeline [B, C] = .ok [C] := by
    rw [get_loading_pipeline, reduceSteps_cons_notloading _ hB,
        reduceSteps_cons_loading _ hC, reduceSteps_nil]
    simp [assertNonEmpty]
  have hBWC : get_loading_pipeline [B, Step.msfaObj [C]] = .ok [C] := by
    rw [get_loading_pipeline, reduceSteps_cons_notloading _ hB,
        reduceSteps_cons_msfa, hC1, reduceSteps_nil]
    simp [assertNonEmpty]
  constructor
  · rw [get_loading_pipeline, reduceSteps_cons_loading _ hA, reduceSteps_cons_msfa, hBC,
        reduceSteps_cons_loading _ hD, reduceSteps_nil]
    simp [assertNonEmpty]
  · rw [get_loading_pipeline, reduceSteps_cons_loading _ hA, reduceSteps_cons_msfa, hBWC,
        reduceSteps_cons_loading _ hD, reduceSteps_nil]
    simp [assertNonEmpty]

/-- C6 witness: flattening at concrete loading/non-loading objects. -/
theorem c6_wrapper_flattening_witness :
    get_loading_pipeline
      [Step.obj ObjKind.LoadAnnotations3D,
       Step.msfaObj [Step.obj (ObjKind.other "Resize"),
                     Step.obj ObjKind.DefaultFormatBundle3D],
       Step.obj ObjKind.LoadMultiViewImageFromFiles] =
      .ok [Step.obj ObjKind.LoadAnnotations3D,
           Step.obj ObjKind.DefaultFormatBundle3D,
           Step.obj ObjKind.LoadMultiViewImageFromFiles] ∧
    get_loading_pipeline
      [Step.obj ObjKind.LoadAnnotations3D,
       Step.msfaObj [Step.obj (ObjKind.other "Resize"),
                     Step.msfaObj [Step.obj ObjKind.DefaultFormatBundle3D]],
       Step.obj ObjKind.LoadMultiViewImageFromFiles] =
      .ok [Step.obj ObjKind.LoadAnnotations3D,
           Step.obj ObjKind.DefaultFormatBundle3D,
           Step.obj ObjKind.LoadMultiViewImageFromFiles] :=
  c6_wrapper_flattening _ _ _ _ rfl rfl rfl rfl

/-- C7: idempotence — if reduction of P succeeds with result l and l is
wrapper-free, reducing l again succeeds and returns l unchanged. -/
theorem c7_idempotent :
    ∀ P l : List Step, get_loading_pipeline P = .ok l →
      (∀ t ∈ l, ∀ tfs, t ≠ Step.msfaObj tfs) →
      get_loading_pipeline l = .ok l := by
  intro P l hP _
  rw [get_loading_pipeline] at hP
  obtain ⟨hred, hlen⟩ := assertNonEmpty_ok hP
  have hall := reduceSteps_all_loading P l hred
  have h2 : ∀ t ∈ l, is_loading_function t ≠ none := by
    intro t ht
    rw [hall t ht]
    simp
  have h3 : l.filter keepStep = l := by
    rw [List.filter_eq_self]
    intro t ht
    simp [keepStep, hall t ht]
  rw [get_loading_pipeline, reduceSteps_no_wrapper l h2, h3]
  simp [assertNonEmpty, hlen]

/-- C7 witness: reducing an already-reduced pipeline is a no-op. -/
theorem c7_idempotent_witness :
    get_loading_pipeline [Step.obj ObjKind.LoadAnnotations3D] =
      .ok [Step.obj ObjKind.LoadAnnotations3D] :=
  c7_idempotent
    [Step.obj ObjKind.LoadAnnotations3D, Step.obj (ObjKind.other "Resize")] _
    (by rw [get_loading_pipeline,
            reduceSteps_cons_loading _
              (rfl : is_loading_function (Step.obj ObjKind.LoadAnnotations3D) = some true),
            reduceSteps_cons_notloading _
              (rfl : is_loading_function (Step.obj (ObjKind.other "Resize")) = some false),
            reduceSteps_nil]
        rfl)
    (by intro t ht tfs; simp at ht; subst ht; simp)

/-- C8: the five listed extractor input/output pairs. -/
theorem c8_extractor_examples :
    extract_result_dict [] "x" = .ok PyVal.pyNone
  ∧ extract_result_dict [("x", PyVal.int 5)] "x" = .ok (PyVal.int 5)
  ∧ extract_result_dict [("x", PyVal.list [PyVal.int 5])] "x" = .ok (PyVal.int 5)
  ∧ extract_result_dict [("x", PyVal.tuple [PyVal.int 5, PyVal.int 6])] "x" =
      .ok (PyVal.int 5)
  ∧ extract_result_dict
      [("x", PyVal.list [PyVal.int 5, PyVal.int 6]), ("y", PyVal.int 1)] "y" =
      .ok (PyVal.int 1) :=
  ⟨rfl, rfl, rfl, rfl, rfl⟩

/-- C10: every dict-form (non-callable) step is classified False whatever
its type field says, hence the reducer drops every dict-form step; and the
None classification only arises from an instantiated MultiScaleFlipAug3D
object, so the reducer branch reading a dict wrapper's 'transforms' key is
unreachable. -/
theorem c10_dict_branch_unreachable :
    (∀ (ty : String) (tfs : Option (List Step)),
        is_loading_function (Step.config ty tfs) = some false)
  ∧ (∀ (ty : String) (tfs : Option (List Step)) (rest : List Step),
        reduceSteps (Step.config ty tfs :: rest) = reduceSteps rest)
  ∧ (∀ t : Step, is_loading_function t = none → ∃ tfs, t = Step.msfaObj tfs) := by
  refine ⟨fun ty tfs => rfl, fun ty tfs rest => ?_, fun t h => is_loading_function_none h⟩
  exact reduceSteps_cons_notloading rest rfl

/-- C10 witness: even a dict naming the wrapper kind is classified False
and dropped, and the None classification at a concrete step exhibits a
MultiScaleFlipAug3D object. -/
theorem c10_dict_branch_unreachable_witness :
    is_loading_function (Step.config "MultiScaleFlipAug3D" Option.none) = some false
  ∧ reduceSteps [Step.config "MultiScaleFlipAug3D" (some [])] = reduceSteps []
  ∧ ∃ tfs, Step.msfaObj [] = Step.msfaObj tfs :=
  ⟨c10_dict_branch_unreachable.1 "MultiScaleFlipAug3D" Option.none,
   c10_dict_branch_unreachable.2.1 "MultiScaleFlipAug3D" (some []) [],
   c10_dict_branch_unreachable.2.2 (Step.msfaObj []) rfl⟩
